import Mathlib

/-!
Verification of the clean-server-requests session coordinator, event
transport and envelope layer.

The Lean definitions below are a shallow embedding of the Rust sources:

  * src/csr-server/src/service.rs   — session registry, join/host/quorum
    logic, the dice and coin rounds, error reporting;
  * src/csr-protocol/src/event.rs   — the per-user conduit (ServerEventSender)
    and its correlated request/response operations;
  * src/csr-protocol/src/types.rs   — the envelope (domain/wire) layer.

Machine integers are modelled as Nat; the one place where a narrowing cast
matters (the quorum check casts users.len() to u8) carries an explicit
mod 256.  HashMaps are modelled as association lists whose order is the
map's iteration order.  Fallible Rust code returns Except; a Rust panic
(out-of-bounds index) is modelled as Option.none.  Randomly drawn values
(dice truth vector, coin truth vector) and the asynchronous client replies
are parameters of the corresponding functions.
-/

namespace CSR

/-- Domain Coin enumeration (types.rs). -/
inductive Coin
  | heads
  | tails
  deriving DecidableEq, Repr

/-- Domain SessionType enumeration (types.rs). -/
inductive SessionType
  | dice
  | coin
  deriving DecidableEq, Repr

/-- Union of the error enums of csr-protocol/src/error.rs and
csr-server/src/error.rs; the source passes both as boxed dynamic errors. -/
inductive Error
  | clientDisconnected
  | clientError (e : String)
  | invalidSessionType
  | invalidCoinValue
  | invalidServerRequest
  | invalidClientResponse
  | clientUnreachable (uid : Nat)
  | sessionNotFound (sid : Nat)
  | unknownWinner
  | userAlreadyInSession (uid : Nat) (sid : Nat)
  | userNotInSession (uid : Nat) (sid : Nat)
  deriving DecidableEq, Repr

/-- UserData (service.rs): the display name of a joined user. -/
structure UserData where
  name : String
  deriving DecidableEq, Repr

/-- Dice scoring loop of dice_game (service.rs lines 244-249):
for g in guess, if results.contains(g) the score is incremented. -/
def diceScore (guess results : List Nat) : Nat :=
  guess.foldl (fun score g => if results.contains g then score + 1 else score) 0

/-- Coin scoring loop of coin_game (service.rs lines 280-285), iterating x
over the indices of the guess: the loop breaks when x > results.len() and
otherwise reads results[x]; the read is out of bounds (a Rust panic,
modelled as none) when x = results.len(). -/
def coinScoreGo (results : List Coin) : List Coin → Nat → Nat → Option Nat
  | [], _, score => some score
  | g :: rest, x, score =>
    if results.length < x then some score
    else
      match results[x]? with
      | none => none
      | some t =>
        coinScoreGo results rest (x + 1) (if t = g then score + 1 else score)

/-- Coin score of one guess against the truth vector (service.rs 279-285);
none models the out-of-bounds panic. -/
def coinScore (guess results : List Coin) : Option Nat :=
  coinScoreGo results guess 0 0

/-- The value of a defined coin score (0 as a dummy in the panic case). -/
def coinScoreV (guess results : List Coin) : Nat :=
  (coinScore guess results).getD 0

end CSR

namespace CSR

/-- One step of the winner-selection loop shared by dice_game and coin_game
(service.rs lines 250-253 and 286-289): the accumulator is the pair
(winner, winner_score) and a user whose score satisfies
score >= winner_score becomes the winner. -/
def winnerStep (acc : Option Nat × Nat) (p : Nat × Nat) : Option Nat × Nat :=
  if acc.2 ≤ p.2 then (some p.1, p.2) else acc

/-- Follows the spec's words: "the last user polled with score ≥ current
best wins (strictly, score >= winner_score updates the winner); score
begins at 0".  Input: the polled users with their scores, in poll order. -/
def specWinner (l : List (Nat × Nat)) : Option Nat :=
  (l.foldl winnerStep ((none : Option Nat), 0)).1

/-- Scoring loop of dice_game (service.rs lines 240-254): for each user in
iteration order ask for a guess (an Except models route + roll_dice, which
can fail), score it against the truth vector, and update the winner when
score >= winner_score. -/
def diceLoop (guess : Nat → Except Error (List Nat)) (results : List Nat) :
    List (Nat × UserData) → Option Nat → Nat → Except Error (Option Nat)
  | [], winner, _ => .ok winner
  | u :: rest, winner, ws =>
    match guess u.1 with
    | .error e => .error e
    | .ok g =>
      let score := diceScore g results
      if ws ≤ score then diceLoop guess results rest (some u.1) score
      else diceLoop guess results rest winner ws

/-- dice_game (service.rs lines 226-259) with the randomly rolled truth
vector and the per-user replies as parameters: run the scoring loop, then
return the winner, or UnknownWinner when none was selected. -/
def dice_game (users : List (Nat × UserData)) (guess : Nat → Except Error (List Nat))
    (results : List Nat) : Except Error Nat :=
  match diceLoop guess results users none 0 with
  | .error e => .error e
  | .ok (some w) => .ok w
  | .ok none => .error .unknownWinner

/-- Scoring loop of coin_game (service.rs lines 275-290); the outer Option
is none when the positional scoring panics (see coinScore). -/
def coinLoop (guess : Nat → Except Error (List Coin)) (results : List Coin) :
    List (Nat × UserData) → Option Nat → Nat → Option (Except Error (Option Nat))
  | [], winner, _ => some (.ok winner)
  | u :: rest, winner, ws =>
    match guess u.1 with
    | .error e => some (.error e)
    | .ok g =>
      match coinScore g results with
      | none => none
      | some score =>
        if ws ≤ score then coinLoop guess results rest (some u.1) score
        else coinLoop guess results rest winner ws

/-- coin_game (service.rs lines 261-295) with the flipped truth vector and
the per-user replies as parameters; none models a panic of the task. -/
def coin_game (users : List (Nat × UserData)) (guess : Nat → Except Error (List Coin))
    (results : List Coin) : Option (Except Error Nat) :=
  match coinLoop guess results users none 0 with
  | none => none
  | some (.error e) => some (.error e)
  | some (.ok (some w)) => some (.ok w)
  | some (.ok none) => some (.error .unknownWinner)

/-- SessionState (service.rs lines 22-28).  users is the HashMap
UserID → UserData as an association list in iteration order;
server_event_senders is modelled by its key set (the ServerEventSender
values are opaque capabilities). -/
structure SessionState where
  player_count : Nat
  users : List (Nat × UserData)
  session_type : SessionType
  server_event_senders : List Nat
  deriving DecidableEq, Repr

/-- The CleanService state (service.rs lines 52-55): the session registry
together with the NEXT_SESSION_ID atomic counter (initial value 1). -/
structure Registry where
  next_sid : Nat
  sessions : List (Nat × SessionState)
  deriving DecidableEq, Repr

/-- The freshly constructed service: no sessions, counter at 1. -/
def Registry.empty : Registry := ⟨1, []⟩

/-- host_session (service.rs lines 86-104): allocate the next SessionID,
insert an empty SessionState, return the new sid. -/
def host_session (r : Registry) (typ : SessionType) (player_count : Nat) :
    Registry × Nat :=
  let sid := r.next_sid
  (⟨sid + 1, (sid, ⟨player_count, [], typ, []⟩) :: r.sessions⟩, sid)

/-- Replace the state stored under sid (a HashMap overwrite). -/
def Registry.store (r : Registry) (sid : Nat) (st : SessionState) : Registry :=
  ⟨r.next_sid, r.sessions.map (fun p => if p.1 == sid then (sid, st) else p)⟩

/-- join_session (service.rs lines 116-138): look the session up
(SessionNotFound when absent), reject a uid that is already a member,
append the user, then compare the post-insertion count, cast to u8
(mod 256), with player_count; on equality the game is set up.  The
returned Bool is that quorum trigger. -/
def join_session (r : Registry) (sid uid : Nat) (name : String) :
    Except Error (Registry × Bool) :=
  match r.sessions.lookup sid with
  | none => .error (.sessionNotFound sid)
  | some st =>
    if uid ∈ st.users.map Prod.fst then .error (.userAlreadyInSession uid sid)
    else
      let st2 : SessionState := { st with users := st.users ++ [(uid, ⟨name⟩)] }
      let started := st2.users.length % 256 == st.player_count
      .ok (r.store sid st2, started)

/-- register_server_event_sender (service.rs lines 140-145): the conduit is
stored for a joined user; UserNotInSession otherwise (get_session_for_user,
lines 72-80). -/
def register_server_event_sender (r : Registry) (sid uid : Nat) :
    Except Error Registry :=
  match r.sessions.lookup sid with
  | none => .error (.sessionNotFound sid)
  | some st =>
    if uid ∈ st.users.map Prod.fst then
      .ok (r.store sid
        { st with server_event_senders :=
            uid :: st.server_event_senders.filter (fun x => x ≠ uid) })
    else .error (.userNotInSession uid sid)

/-- Sender move-out loop of game_setup_impl (service.rs lines 163-168): for
each uid in users, remove that uid's sender from the session state and
attach it to the Callback table.  Returns (callback key set, senders left
in the session state). -/
def moveSenders : List (Nat × UserData) → List Nat → List Nat × List Nat
  | [], senders => ([], senders)
  | u :: rest, senders =>
    if u.1 ∈ senders then
      let r := moveSenders rest (senders.filter (fun x => x ≠ u.1))
      (u.1 :: r.1, r.2)
    else moveSenders rest senders

/-- report_error (service.rs lines 297-316): the formatted error text is
sent fire-and-forget to every user that still has a sender in the session
state; users without a sender (and failed sends) are only logged.  Returns
the (uid, text) deliveries attempted. -/
def report_error (users : List (Nat × UserData)) (senders : List Nat)
    (msg : String) : List (Nat × String) :=
  users.filterMap (fun u => if u.1 ∈ senders then some (u.1, msg) else none)

instance {ε α : Type _} [DecidableEq ε] [DecidableEq α] :
    DecidableEq (Except ε α) := fun x y =>
  match x, y with
  | .ok a, .ok b =>
    if h : a = b then .isTrue (by rw [h])
    else .isFalse (by intro hh; cases hh; exact h rfl)
  | .error a, .error b =>
    if h : a = b then .isTrue (by rw [h])
    else .isFalse (by intro hh; cases hh; exact h rfl)
  | .ok _, .error _ => .isFalse (by intro hh; cases hh)
  | .error _, .ok _ => .isFalse (by intro hh; cases hh)

/-- Outcome of the spawned game task as seen through handle.await
(service.rs line 177): either game_thread ran to completion with its
Result, or the task panicked / was cancelled (a tokio JoinError). -/
inductive TaskOutcome
  | completed (r : Except Error Unit)
  | panicked
  deriving DecidableEq, Repr

/-- Error handling of game_setup_impl (service.rs lines 158-182):
the senders are first moved out of the session state into the Callback
table; the match on handle.await takes the Ok(_) arm for any completed
game_thread — including one that returned Err — and calls report_error
only for a JoinError (panic or cancellation).  The function itself always
returns Ok(()).  Result: the error(text) deliveries attempted, paired with
the value game_setup_impl returns. -/
def game_setup_impl_sends (st : SessionState) (outcome : TaskOutcome)
    (msg : String) : List (Nat × String) × Except Error Unit :=
  let rem := (moveSenders st.users st.server_event_senders).2
  match outcome with
  | .completed _ => ([], .ok ())
  | .panicked => (report_error st.users rem msg, .ok ())

/-- game_setup (service.rs lines 148-156): report_error is called only when
game_setup_impl returned Err — which it never does (its only exit is
Ok(())); otherwise the deliveries are those of game_setup_impl. -/
def game_setup_sends (st : SessionState) (outcome : TaskOutcome)
    (msg : String) : List (Nat × String) :=
  match game_setup_impl_sends st outcome msg with
  | (sends, .ok _) => sends
  | (sends, .error _) =>
      sends ++ report_error st.users
        (moveSenders st.users st.server_event_senders).2 msg

/-- Control-flow steps performed by the join_session RPC handler and the
game-setup path it calls (service.rs lines 116-182), in program order. -/
inductive Step
  | lookupSession
  | checkMembership
  | insertUser
  | checkQuorum
  | readSessionState
  | moveSendersOut
  | spawnGameTask
  | awaitGameTask
  | handleGameResult
  | returnFromRpc
  deriving DecidableEq, Repr

/-- Steps of game_setup_impl (service.rs lines 158-182): read users and
session type, move the senders into the Callback table, spawn game_thread
with tokio spawn, await the join handle, match on its result. -/
def game_setup_impl_steps : List Step :=
  [.readSessionState, .moveSendersOut, .spawnGameTask, .awaitGameTask,
   .handleGameResult]

/-- Steps of game_setup (service.rs lines 148-156): it runs
game_setup_impl and matches on the result before returning. -/
def game_setup_steps : List Step := game_setup_impl_steps

/-- Steps of the join_session handler (service.rs lines 116-138): session
lookup, membership check, user insertion, quorum check; on the
quorum-completing join the handler runs game_setup(session).await in full
before Ok(()) is returned. -/
def join_session_steps (quorum : Bool) : List Step :=
  [.lookupSession, .checkMembership, .insertUser, .checkQuorum] ++
    (if quorum then game_setup_steps else []) ++ [.returnFromRpc]

/-- Scenario harness: perform a list of (uid, name) joins against one
session, collecting each join's quorum-trigger flag (false for a failed
join, which starts nothing). -/
def runJoins (r : Registry) (sid : Nat) : List (Nat × String) → Registry × List Bool
  | [] => (r, [])
  | (uid, nm) :: rest =>
    match join_session r sid uid nm with
    | .error _ =>
      let p := runJoins r sid rest
      (p.1, false :: p.2)
    | .ok (r2, started) =>
      let p := runJoins r2 sid rest
      (p.1, started :: p.2)

/-- Scenario harness: the registry after a join, ignoring a failure. -/
def afterJoin (r : Registry) (sid uid : Nat) (nm : String) : Registry :=
  match join_session r sid uid nm with
  | .ok (r2, _) => r2
  | .error _ => r

end CSR

namespace CSR.Event

/-- ServerRequest as used by event.rs (this snapshot also carries the
fire-and-forget ServerError variant sent by error(text)). -/
inductive ServerRequest
  | joinInfo (sid uid : Nat) (name : String)
  | ping (text : String)
  | rollDice (sides count : Nat)
  | flipCoin (count : Nat)
  | winner (uid : Nat) (name : String)
  | tryAgain (b : Bool)
  | serverError (text : String)
  deriving DecidableEq, Repr

/-- ClientResponse as used by event.rs (including the ClientError variant
matched by poll). -/
inductive ClientResponse
  | pong (text : String)
  | diceGuess (v : List Nat)
  | coinGuess (v : List Coin)
  | again (b : Bool)
  | clientError (e : String)
  deriving DecidableEq, Repr

/-- A ServerEventSender conduit (event.rs lines 25-36): the outbound queue
of prompts already sent, and the inbound queue of responses that will
arrive, oldest first; an empty inbound list means the queue is closed
before any further value arrives. -/
structure Conduit where
  outbound : List ServerRequest
  inbound : List ClientResponse
  deriving DecidableEq, Repr

/-- poll (event.rs lines 39-49): dequeue one inbound value.  A closed
queue fails with ClientDisconnected; a ClientError(e) value fails with
ClientError(e); any other value is returned.  The second component is the
inbound queue afterwards. -/
def poll : List ClientResponse → Except Error ClientResponse × List ClientResponse
  | [] => (.error .clientDisconnected, [])
  | r :: rest =>
    match r with
    | .clientError e => (.error (.clientError e), rest)
    | x => (.ok x, rest)

/-- roll_dice (event.rs lines 67-75): enqueue RollDice(sides, count)
outbound, then poll once; a DiceGuess payload is returned, any other
successfully polled variant fails with InvalidClientResponse. -/
def roll_dice (c : Conduit) (sides count : Nat) :
    Except Error (List Nat) × Conduit :=
  let out := c.outbound ++ [ServerRequest.rollDice sides count]
  match poll c.inbound with
  | (.error e, rest) => (.error e, ⟨out, rest⟩)
  | (.ok r, rest) =>
    match r with
    | .diceGuess d => (.ok d, ⟨out, rest⟩)
    | _ => (.error .invalidClientResponse, ⟨out, rest⟩)

end CSR.Event

namespace CSR.Clean

/-- Modelled from the spec: the wire (protobuf) Coin enumeration of the
external schema file protos/csr.proto, which is not under src/; its two
values carry distinct integers (proto3 default numbering 0, 1). -/
inductive Coin
  | heads
  | tails
  deriving DecidableEq, Repr

/-- Modelled from the spec: the integer carried for a wire Coin value
(clean::Coin as i32). -/
def Coin.toI32 : Coin → Int
  | .heads => 0
  | .tails => 1

/-- Wire JoinInfo message (u64 ids, string name). -/
structure JoinInfo where
  session_id : Nat
  user_id : Nat
  user_name : String
  deriving DecidableEq, Repr

/-- Wire Ping message. -/
structure Ping where
  text : String
  deriving DecidableEq, Repr

/-- Wire Pong message. -/
structure Pong where
  text : String
  deriving DecidableEq, Repr

/-- Wire RollDice message; sides and count are u32 on the wire. -/
structure RollDice where
  sides : Nat
  count : Nat
  deriving DecidableEq, Repr

/-- Wire FlipCoin message; count is u32 on the wire. -/
structure FlipCoin where
  count : Nat
  deriving DecidableEq, Repr

/-- Wire DiceGuess message; the numbers are u32 on the wire. -/
structure DiceGuess where
  number : List Nat
  deriving DecidableEq, Repr

/-- Wire CoinGuess message; the coins travel as enumeration integers. -/
structure CoinGuess where
  coins : List Int
  deriving DecidableEq, Repr

/-- Wire Winner message. -/
structure Winner where
  user_id : Nat
  user_name : String
  deriving DecidableEq, Repr

/-- The oneof payload of the wire ServerRequest message. -/
inductive Msg
  | userJoined (ji : JoinInfo)
  | ping (p : Ping)
  | dice (rd : RollDice)
  | coin (fc : FlipCoin)
  | winner (w : Winner)
  | tryAgain (t : Bool)
  deriving DecidableEq, Repr

/-- Wire ServerRequest message: an optional oneof payload. -/
structure ServerRequest where
  msg : Option Msg
  deriving DecidableEq, Repr

/-- The oneof payload of the wire ClientResponse message. -/
inductive CMsg
  | pong (p : Pong)
  | diceGuess (dg : DiceGuess)
  | coinGuess (cg : CoinGuess)
  | again (a : Bool)
  deriving DecidableEq, Repr

/-- Wire ClientResponse message: an optional oneof payload. -/
structure ClientResponse where
  msg : Option CMsg
  deriving DecidableEq, Repr

end CSR.Clean

namespace CSR.Types

/-- Domain JoinInfo (types.rs lines 184-202). -/
structure JoinInfo where
  sid : Nat
  uid : Nat
  user_name : String
  deriving DecidableEq, Repr

/-- Domain Ping (types.rs lines 260-272). -/
structure Ping where
  text : String
  deriving DecidableEq, Repr

/-- Domain Pong (types.rs lines 290-302). -/
structure Pong where
  text : String
  deriving DecidableEq, Repr

/-- Domain RollDice (types.rs lines 320-335); sides and count are u8. -/
structure RollDice where
  sides : Nat
  count : Nat
  deriving DecidableEq, Repr

/-- Domain FlipCoin (types.rs lines 355-367); count is u8. -/
structure FlipCoin where
  count : Nat
  deriving DecidableEq, Repr

/-- Domain DiceGuess (types.rs lines 385-397); the numbers are u8. -/
structure DiceGuess where
  number : List Nat
  deriving DecidableEq, Repr

/-- Domain CoinGuess (types.rs lines 415-427). -/
structure CoinGuess where
  coins : List Coin
  deriving DecidableEq, Repr

/-- Domain Winner (types.rs lines 454-469). -/
structure Winner where
  uid : Nat
  name : String
  deriving DecidableEq, Repr

/-- Domain ServerRequest (types.rs lines 489-496). -/
inductive ServerRequest
  | joinInfo (ji : JoinInfo)
  | ping (p : Ping)
  | rollDice (rd : RollDice)
  | flipCoin (fc : FlipCoin)
  | winner (w : Winner)
  | tryAgain (t : Bool)
  deriving DecidableEq, Repr

/-- Domain ClientResponse (types.rs lines 542-547). -/
inductive ClientResponse
  | pong (p : Pong)
  | diceGuess (dg : DiceGuess)
  | coinGuess (cg : CoinGuess)
  | again (a : Bool)
  deriving DecidableEq, Repr

/-- Domain Coin to wire enumeration integer: From(Coin) for clean::Coin
(types.rs lines 62-69) composed with the i32 cast used in CoinGuess. -/
def coinToWire (c : Coin) : Int :=
  (match c with
    | Coin.heads => Clean.Coin.heads
    | Coin.tails => Clean.Coin.tails).toI32

/-- TryFrom i32 for Coin (types.rs lines 48-60): compare against the wire
integers of Heads and Tails in order, otherwise InvalidCoinValue. -/
def coinFromWire (i : Int) : Except Error Coin :=
  if i = Clean.Coin.toI32 .heads then .ok Coin.heads
  else if i = Clean.Coin.toI32 .tails then .ok Coin.tails
  else .error .invalidCoinValue

/-- From JoinInfo for clean::JoinInfo (types.rs lines 214-222). -/
def JoinInfo.toWire (ji : JoinInfo) : Clean.JoinInfo :=
  ⟨ji.sid, ji.uid, ji.user_name⟩

/-- From clean::JoinInfo for JoinInfo (types.rs lines 204-212). -/
def JoinInfo.fromWire (w : Clean.JoinInfo) : JoinInfo :=
  ⟨w.session_id, w.user_id, w.user_name⟩

/-- From Ping for clean::Ping (types.rs lines 282-288). -/
def Ping.toWire (p : Ping) : Clean.Ping := ⟨p.text⟩

/-- From clean::Ping for Ping (types.rs lines 274-280). -/
def Ping.fromWire (w : Clean.Ping) : Ping := ⟨w.text⟩

/-- From Pong for clean::Pong (types.rs lines 312-318). -/
def Pong.toWire (p : Pong) : Clean.Pong := ⟨p.text⟩

/-- From clean::Pong for Pong (types.rs lines 304-310). -/
def Pong.fromWire (w : Clean.Pong) : Pong := ⟨w.text⟩

/-- From RollDice for clean::RollDice (types.rs lines 346-353): the u8
fields widen losslessly to u32. -/
def RollDice.toWire (rd : RollDice) : Clean.RollDice := ⟨rd.sides, rd.count⟩

/-- From clean::RollDice for RollDice (types.rs lines 337-344): the u32
fields are narrowed with an "as u8" cast, i.e. reduced mod 256. -/
def RollDice.fromWire (w : Clean.RollDice) : RollDice :=
  ⟨w.sides % 256, w.count % 256⟩

/-- From FlipCoin for clean::FlipCoin (types.rs lines 377-383). -/
def FlipCoin.toWire (fc : FlipCoin) : Clean.FlipCoin := ⟨fc.count⟩

/-- From clean::FlipCoin for FlipCoin (types.rs lines 369-375): count is
narrowed with an "as u8" cast. -/
def FlipCoin.fromWire (w : Clean.FlipCoin) : FlipCoin := ⟨w.count % 256⟩

/-- From DiceGuess for clean::DiceGuess (types.rs lines 407-413). -/
def DiceGuess.toWire (dg : DiceGuess) : Clean.DiceGuess := ⟨dg.number⟩

/-- From clean::DiceGuess for DiceGuess (types.rs lines 399-405): each
number is narrowed with an "as u8" cast. -/
def DiceGuess.fromWire (w : Clean.DiceGuess) : DiceGuess :=
  ⟨w.number.map (fun n => n % 256)⟩

/-- From CoinGuess for clean::CoinGuess (types.rs lines 443-452): each
coin maps to its wire enumeration integer. -/
def CoinGuess.toWire (cg : CoinGuess) : Clean.CoinGuess :=
  ⟨cg.coins.map coinToWire⟩

/-- Conversion loop of TryFrom clean::CoinGuess (types.rs lines 433-436):
convert the integers in order, failing on the first invalid one. -/
def coinsFromWire : List Int → Except Error (List Coin)
  | [] => .ok []
  | i :: rest =>
    match coinFromWire i with
    | .error e => .error e
    | .ok c =>
      match coinsFromWire rest with
      | .error e => .error e
      | .ok cs => .ok (c :: cs)

/-- TryFrom clean::CoinGuess for CoinGuess (types.rs lines 429-441). -/
def CoinGuess.fromWire (w : Clean.CoinGuess) : Except Error CoinGuess :=
  match coinsFromWire w.coins with
  | .error e => .error e
  | .ok cs => .ok ⟨cs⟩

/-- From Winner for clean::Winner (types.rs lines 480-487). -/
def Winner.toWire (w : Winner) : Clean.Winner := ⟨w.uid, w.name⟩

/-- From clean::Winner for Winner (types.rs lines 471-478). -/
def Winner.fromWire (w : Clean.Winner) : Winner := ⟨w.user_id, w.user_name⟩

/-- From ServerRequest for clean::ServerRequest (types.rs lines 520-540):
wrap the matching oneof variant in Some. -/
def ServerRequest.toWire : ServerRequest → Clean.ServerRequest
  | .joinInfo ji => ⟨some (.userJoined ji.toWire)⟩
  | .ping p => ⟨some (.ping p.toWire)⟩
  | .rollDice rd => ⟨some (.dice rd.toWire)⟩
  | .flipCoin fc => ⟨some (.coin fc.toWire)⟩
  | .winner w => ⟨some (.winner w.toWire)⟩
  | .tryAgain t => ⟨some (.tryAgain t)⟩

/-- TryFrom clean::ServerRequest for ServerRequest (types.rs lines
498-518): an absent payload is InvalidServerRequest, otherwise each oneof
variant converts. -/
def ServerRequest.fromWire (w : Clean.ServerRequest) :
    Except Error ServerRequest :=
  match w.msg with
  | none => .error .invalidServerRequest
  | some m =>
    match m with
    | .userJoined ji => .ok (.joinInfo (JoinInfo.fromWire ji))
    | .ping p => .ok (.ping (Ping.fromWire p))
    | .dice rd => .ok (.rollDice (RollDice.fromWire rd))
    | .coin fc => .ok (.flipCoin (FlipCoin.fromWire fc))
    | .winner wn => .ok (.winner (Winner.fromWire wn))
    | .tryAgain t => .ok (.tryAgain t)

/-- From ClientResponse for clean::ClientResponse (types.rs lines
567-583). -/
def ClientResponse.toWire : ClientResponse → Clean.ClientResponse
  | .pong p => ⟨some (.pong p.toWire)⟩
  | .diceGuess dg => ⟨some (.diceGuess dg.toWire)⟩
  | .coinGuess cg => ⟨some (.coinGuess cg.toWire)⟩
  | .again a => ⟨some (.again a)⟩

/-- TryFrom clean::ClientResponse for ClientResponse (types.rs lines
549-565): an absent payload is InvalidClientResponse; CoinGuess conversion
may itself fail. -/
def ClientResponse.fromWire (w : Clean.ClientResponse) :
    Except Error ClientResponse :=
  match w.msg with
  | none => .error .invalidClientResponse
  | some m =>
    match m with
    | .pong p => .ok (.pong (Pong.fromWire p))
    | .diceGuess dg => .ok (.diceGuess (DiceGuess.fromWire dg))
    | .coinGuess cg =>
      match CoinGuess.fromWire cg with
      | .ok c => .ok (.coinGuess c)
      | .error e => .error e
    | .again a => .ok (.again a)

/-- The u8 range constraints carried by the Rust types of a domain
ServerRequest payload. -/
def WFServerRequest : ServerRequest → Prop
  | .rollDice rd => rd.sides < 256 ∧ rd.count < 256
  | .flipCoin fc => fc.count < 256
  | _ => True

/-- The u8 range constraints carried by the Rust types of a domain
ClientResponse payload. -/
def WFClientResponse : ClientResponse → Prop
  | .diceGuess dg => ∀ n ∈ dg.number, n < 256
  | _ => True

instance : DecidablePred WFServerRequest := fun sr => by
  unfold WFServerRequest
  cases sr <;> infer_instance

instance : DecidablePred WFClientResponse := fun cr => by
  unfold WFClientResponse
  cases cr <;> infer_instance

end CSR.Types

namespace CSR

/-- Follows claim C7's words: the number of distinct-membership hits of
guess entries in the truth vector, repeated occurrences of the same value
in the guess counted once. -/
def diceScoreDistinctSpec (guess results : List Nat) : Nat :=
  (guess.dedup.filter (fun g => results.contains g)).length

/-- Scenario: a freshly hosted dice session with player_count 1 (sid 1). -/
def c3reg0 : Registry := (host_session Registry.empty .dice 1).1

/-- Scenario: the same session after user 7 joined; it is now full. -/
def c3reg1 : Registry := afterJoin c3reg0 1 7 "a"

/-- Scenario: 257 joins with fresh uids 0..256 against one session. -/
def c5joins : List (Nat × String) := (List.range 257).map (fun i => (i, "u"))

/-- Scenario: two users polled in order, user 2 last. -/
def c6users : List (Nat × UserData) := [(1, ⟨"a"⟩), (2, ⟨"b"⟩)]

/-- Scenario: every dice prompt succeeds with the guess [1]. -/
def c6guessD : Nat → Except Error (List Nat) := fun _ => .ok [1]

/-- Scenario: the dice reply vector of every user. -/
def c6gd : Nat → List Nat := fun _ => [1]

/-- Scenario: every coin prompt succeeds with the guess [Heads]. -/
def c6guessC : Nat → Except Error (List Coin) := fun _ => .ok [Coin.heads]

/-- Scenario: the coin reply vector of every user. -/
def c6gc : Nat → List Coin := fun _ => [Coin.heads]

end CSR

namespace CSR

theorem winnerFold_some (l : List (Nat × Nat)) (w : Nat) (ws : Nat) :
    ∃ v s, l.foldl winnerStep (some w, ws) = (some v, s) := by
  induction l generalizing w ws with
  | nil => exact ⟨w, ws, rfl⟩
  | cons p rest ih =>
    simp only [List.foldl_cons, winnerStep]
    by_cases h : ws ≤ p.2
    · simp only [h, if_true]
      exact ih p.1 p.2
    · simp only [h, if_false]
      exact ih w ws

theorem winnerFold_ne_nil (l : List (Nat × Nat)) (h : l ≠ []) :
    ∃ v s, l.foldl winnerStep ((none : Option Nat), 0) = (some v, s) := by
  cases l with
  | nil => exact absurd rfl h
  | cons p rest =>
    simp only [List.foldl_cons, winnerStep, Nat.zero_le, if_true]
    exact winnerFold_some rest p.1 p.2

theorem specWinner_isSome (l : List (Nat × Nat)) (h : l ≠ []) :
    ∃ v, specWinner l = some v := by
  obtain ⟨v, s, hv⟩ := winnerFold_ne_nil l h
  exact ⟨v, by simp [specWinner, hv]⟩

theorem winnerFold_allZero (l : List (Nat × Nat)) (w : Option Nat)
    (hz : ∀ p ∈ l, p.2 = 0) (hne : l ≠ []) :
    (l.foldl winnerStep (w, 0)).1 = l.getLast?.map Prod.fst := by
  induction l generalizing w with
  | nil => exact absurd rfl hne
  | cons p rest ih =>
    have hp : p.2 = 0 := hz p (List.mem_cons_self p rest)
    simp only [List.foldl_cons, winnerStep, Nat.zero_le, if_true]
    cases rest with
    | nil => simp [hp]
    | cons q t =>
      have := ih (some p.1) (fun x hx => hz x (List.mem_cons_of_mem _ hx))
        (by simp)
      rw [hp, this, List.getLast?_cons_cons]

theorem diceLoop_eq_fold (guess : Nat → Except Error (List Nat))
    (gd : Nat → List Nat) (results : List Nat) :
    ∀ (users : List (Nat × UserData)),
    (∀ u ∈ users, guess u.1 = .ok (gd u.1)) →
    ∀ (w : Option Nat) (ws : Nat),
    diceLoop guess results users w ws =
      .ok ((users.map (fun u => (u.1, diceScore (gd u.1) results))).foldl
        winnerStep (w, ws)).1 := by
  intro users
  induction users with
  | nil => intro _ w ws; rfl
  | cons u rest ih =>
    intro hok w ws
    have hu : guess u.1 = .ok (gd u.1) := hok u (List.mem_cons_self u rest)
    have htail : ∀ x ∈ rest, guess x.1 = .ok (gd x.1) :=
      fun x hx => hok x (List.mem_cons_of_mem _ hx)
    simp only [diceLoop, hu, List.map_cons, List.foldl_cons, winnerStep]
    by_cases h : ws ≤ diceScore (gd u.1) results
    · simp only [h, if_true]
      exact ih htail _ _
    · simp only [h, if_false]
      exact ih htail _ _

theorem coinScoreGo_some (results : List Coin) :
    ∀ (g : List Coin) (x score : Nat), x + g.length ≤ results.length →
    ∃ s, coinScoreGo results g x score = some s := by
  intro g
  induction g with
  | nil => intro x score _; exact ⟨score, rfl⟩
  | cons a t ih =>
    intro x score h
    simp only [List.length_cons] at h
    have hx : x < results.length := by omega
    have hnotlt : ¬ (results.length < x) := by omega
    have hget : results[x]? = some (results.get ⟨x, hx⟩) := by
      rw [List.getElem?_eq_getElem hx]
      rfl
    simp only [coinScoreGo, hnotlt, if_false, hget]
    exact ih (x + 1) _ (by omega)

theorem coinScore_eq_val (g results : List Coin)
    (h : g.length ≤ results.length) :
    coinScore g results = some (coinScoreV g results) := by
  obtain ⟨s, hs⟩ := coinScoreGo_some results g 0 0 (by omega)
  rw [coinScoreV, coinScore] at *
  rw [hs]
  rfl

theorem coinLoop_eq_fold (guess : Nat → Except Error (List Coin))
    (gc : Nat → List Coin) (results : List Coin) :
    ∀ (users : List (Nat × UserData)),
    (∀ u ∈ users, guess u.1 = .ok (gc u.1)) →
    (∀ u ∈ users, (gc u.1).length ≤ results.length) →
    ∀ (w : Option Nat) (ws : Nat),
    coinLoop guess results users w ws =
      some (.ok ((users.map (fun u => (u.1, coinScoreV (gc u.1) results))).foldl
        winnerStep (w, ws)).1) := by
  intro users
  induction users with
  | nil => intro _ _ w ws; rfl
  | cons u rest ih =>
    intro hok hlen w ws
    have hu : guess u.1 = .ok (gc u.1) := hok u (List.mem_cons_self u rest)
    have hscore : coinScore (gc u.1) results = some (coinScoreV (gc u.1) results) :=
      coinScore_eq_val _ _ (hlen u (List.mem_cons_self u rest))
    have htail : ∀ x ∈ rest, guess x.1 = .ok (gc x.1) :=
      fun x hx => hok x (List.mem_cons_of_mem _ hx)
    have htail2 : ∀ x ∈ rest, (gc x.1).length ≤ results.length :=
      fun x hx => hlen x (List.mem_cons_of_mem _ hx)
    simp only [coinLoop, hu, hscore, List.map_cons, List.foldl_cons, winnerStep]
    by_cases h : ws ≤ coinScoreV (gc u.1) results
    · simp only [h, if_true]
      exact ih htail htail2 _ _
    · simp only [h, if_false]
      exact ih htail htail2 _ _

theorem dice_game_eq_spec (users : List (Nat × UserData))
    (guess : Nat → Except Error (List Nat)) (gd : Nat → List Nat)
    (results : List Nat) (hne : users ≠ [])
    (hok : ∀ u ∈ users, guess u.1 = .ok (gd u.1)) :
    ∃ w, specWinner (users.map (fun u => (u.1, diceScore (gd u.1) results)))
        = some w ∧
      dice_game users guess results = .ok w := by
  obtain ⟨v, s, hv⟩ := winnerFold_ne_nil
    (users.map (fun u => (u.1, diceScore (gd u.1) results)))
    (by simpa using hne)
  refine ⟨v, by simp [specWinner, hv], ?_⟩
  unfold dice_game
  rw [diceLoop_eq_fold guess gd results users hok none 0, hv]

theorem coin_game_eq_spec (users : List (Nat × UserData))
    (guess : Nat → Except Error (List Coin)) (gc : Nat → List Coin)
    (results : List Coin) (hne : users ≠ [])
    (hok : ∀ u ∈ users, guess u.1 = .ok (gc u.1))
    (hlen : ∀ u ∈ users, (gc u.1).length ≤ results.length) :
    ∃ w, specWinner (users.map (fun u => (u.1, coinScoreV (gc u.1) results)))
        = some w ∧
      coin_game users guess results = some (.ok w) := by
  obtain ⟨v, s, hv⟩ := winnerFold_ne_nil
    (users.map (fun u => (u.1, coinScoreV (gc u.1) results)))
    (by simpa using hne)
  refine ⟨v, by simp [specWinner, hv], ?_⟩
  unfold coin_game
  rw [coinLoop_eq_fold guess gc results users hok hlen none 0, hv]

theorem dice_game_allZero (users : List (Nat × UserData))
    (guess : Nat → Except Error (List Nat)) (gd : Nat → List Nat)
    (results : List Nat) (hne : users ≠ [])
    (hok : ∀ u ∈ users, guess u.1 = .ok (gd u.1))
    (hz : ∀ u ∈ users, diceScore (gd u.1) results = 0) :
    dice_game users guess results = .ok ((users.getLast hne).1) := by
  unfold dice_game
  rw [diceLoop_eq_fold guess gd results users hok none 0]
  have hzl : ∀ p ∈ users.map (fun u => (u.1, diceScore (gd u.1) results)),
      p.2 = 0 := by
    intro p hp
    obtain ⟨u, hu, rfl⟩ := List.mem_map.mp hp
    exact hz u hu
  rw [winnerFold_allZero _ none hzl (by simpa using hne)]
  rw [List.getLast?_map, List.getLast?_eq_getLast_of_ne_nil hne]
  rfl

theorem moveSenders_subset (users : List (Nat × UserData)) :
    ∀ s : List Nat, (moveSenders users s).2 ⊆ s := by
  induction users with
  | nil => intro s; exact fun x hx => hx
  | cons u rest ih =>
    intro s
    simp only [moveSenders]
    by_cases h : u.1 ∈ s
    · simp only [h, if_true]
      exact (ih _).trans (List.filter_subset' s)
    · simp only [h, if_false]
      exact ih s

theorem moveSenders_removes (users : List (Nat × UserData)) :
    ∀ (s : List Nat) (uid : Nat), uid ∈ users.map Prod.fst →
    uid ∉ (moveSenders users s).2 := by
  induction users with
  | nil => intro s uid h; simp at h
  | cons u rest ih =>
    intro s uid h
    simp only [List.map_cons, List.mem_cons] at h
    simp only [moveSenders]
    by_cases hm : u.1 ∈ s
    · simp only [hm, if_true]
      rcases h with h | h
      · subst h
        intro hmem
        have := moveSenders_subset rest _ hmem
        simp [List.mem_filter] at this
      · exact ih _ uid h
    · simp only [hm, if_false]
      rcases h with h | h
      · subst h
        intro hmem
        exact hm (moveSenders_subset rest s hmem)
      · exact ih s uid h

theorem report_error_after_move (users : List (Nat × UserData))
    (s : List Nat) (msg : String) :
    report_error users (moveSenders users s).2 msg = [] := by
  unfold report_error
  rw [List.filterMap_eq_nil_iff]
  intro u hu
  have hnot : u.1 ∉ (moveSenders users s).2 :=
    moveSenders_removes users s u.1 (List.mem_map_of_mem _ hu)
  simp [hnot]

theorem lookup_store (l : List (Nat × SessionState)) (sid : Nat)
    (st st2 : SessionState) (h : l.lookup sid = some st) :
    (l.map (fun p => if p.1 == sid then (sid, st2) else p)).lookup sid
      = some st2 := by
  induction l with
  | nil => simp [List.lookup] at h
  | cons p t ih =>
    obtain ⟨k, v⟩ := p
    by_cases hk : k = sid
    · subst hk
      have hmap : (((k, v) :: t).map (fun p => if p.1 == k then (k, st2) else p))
          = (k, st2) :: t.map (fun p => if p.1 == k then (k, st2) else p) := by
        simp
      rw [hmap, List.lookup]
      simp
    · have hb : (k == sid) = false := by simpa using hk
      have hb2 : (sid == k) = false := by
        simp
        exact fun hc => hk hc.symm
      have hmap : (((k, v) :: t).map (fun p => if p.1 == sid then (sid, st2) else p))
          = (k, v) :: t.map (fun p => if p.1 == sid then (sid, st2) else p) := by
        simp only [List.map_cons]
        rw [if_neg (by simp [hb])]
      simp only [List.lookup, hb2] at h
      rw [hmap, List.lookup, hb2]
      exact ih h

theorem diceScore_foldl (results : List Nat) :
    ∀ (guess : List Nat) (acc : Nat),
    guess.foldl (fun score g => if results.contains g then score + 1 else score) acc
      = acc + (guess.filter (fun g => results.contains g)).length := by
  intro guess
  induction guess with
  | nil => intro acc; simp
  | cons a t ih =>
    intro acc
    simp only [List.foldl_cons, List.filter_cons]
    by_cases h : results.contains a
    · simp only [h, if_true]
      rw [ih (acc + 1)]
      simp only [List.length_cons]
      omega
    · simp only [h, Bool.false_eq_true, if_false]
      exact ih acc

theorem contains_dedup (results : List Nat) (g : Nat) :
    results.dedup.contains g = results.contains g := by
  by_cases h : g ∈ results
  · have h2 : g ∈ results.dedup := List.mem_dedup.mpr h
    simp [h, h2]
  · have h2 : g ∉ results.dedup := fun hc => h (List.mem_dedup.mp hc)
    simp [h, h2]

theorem map_mod256_eq (l : List Nat) (h : ∀ n ∈ l, n < 256) :
    l.map (fun n => n % 256) = l := by
  induction l with
  | nil => rfl
  | cons a t ih =>
    have ha : a % 256 = a := Nat.mod_eq_of_lt (h a (List.mem_cons_self a t))
    have ht : t.map (fun n => n % 256) = t :=
      ih (fun n hn => h n (List.mem_cons_of_mem _ hn))
    simp [ha, ht]

theorem coinFromWire_toWire (c : Coin) :
    Types.coinFromWire (Types.coinToWire c) = .ok c := by
  cases c <;> rfl

theorem coinsFromWire_map (cs : List Coin) :
    Types.coinsFromWire (cs.map Types.coinToWire) = .ok cs := by
  induction cs with
  | nil => rfl
  | cons c t ih =>
    simp only [List.map_cons, Types.coinsFromWire, coinFromWire_toWire, ih]

/-- C1: contrary to the claim, a failing game loop is never broadcast to the
users: game_setup_impl matches Ok(_) on handle.await, an arm that also
covers a game_thread which returned Err, so report_error is reached only
for a panicked task — and even then it delivers nothing, because every
joined user's sender was moved out of the session state when the game
started.  No error(text) delivery is ever attempted, whatever the session
state and the outcome of the game task. -/
theorem c1_game_loop_error_not_broadcast (st : SessionState)
    (outcome : TaskOutcome) (msg : String) :
    game_setup_sends st outcome msg = [] := by
  unfold game_setup_sends game_setup_impl_sends
  cases outcome with
  | completed r => rfl
  | panicked => simp [report_error_after_move]

/-- C2: the coin scoring is not well defined when the guess is longer than
the truth vector: with truth [Heads] and guess [Heads, Heads] the loop
reaches x = 1 = len(truth) without breaking (the guard fires only for
x > len) and reads results[1] out of bounds — a panic, modelled as none —
instead of returning the min-length score 1. -/
theorem c2_coin_score_panics_on_long_guess :
    coinScore [Coin.heads, Coin.heads] [Coin.heads] = none := rfl

/-- C3 counterexample: a hosted dice session with player_count 1 is full
once user 7 has joined, yet JoinSession for the fresh uid 8 succeeds and
inserts the user, leaving users.size = 2 > player_count = 1. -/
theorem c3_full_session_join_succeeds :
    (c3reg1.sessions.lookup 1).map (fun st => (st.player_count, st.users.length))
      = some (1, 1) ∧
    join_session c3reg1 1 8 "b" = .ok (afterJoin c3reg1 1 8 "b", false) ∧
    ((afterJoin c3reg1 1 8 "b").sessions.lookup 1).map (fun st => st.users.length)
      = some 2 := by decide

/-- C3 amended: join_session performs no fullness check: whenever the
session is full (users.size = player_count) and the joining uid is new,
the join succeeds and the stored user count becomes player_count + 1, so
the users.size bound is maintained only while joins stop at quorum. -/
theorem c3_join_when_full_inserts (r : Registry) (sid uid : Nat) (nm : String)
    (st : SessionState) (hlook : r.sessions.lookup sid = some st)
    (hfull : st.users.length = st.player_count)
    (hnew : uid ∉ st.users.map Prod.fst) :
    join_session r sid uid nm
      = .ok (r.store sid { st with users := st.users ++ [(uid, ⟨nm⟩)] },
             ((st.player_count + 1) % 256 == st.player_count)) ∧
    ((r.store sid { st with users := st.users ++ [(uid, ⟨nm⟩)] }).sessions.lookup
        sid).map (fun s => s.users.length) = some (st.player_count + 1) := by
  constructor
  · unfold join_session
    rw [hlook]
    simp [hnew, List.length_append, hfull]
  · have h2 := lookup_store r.sessions sid st
      { st with users := st.users ++ [(uid, ⟨nm⟩)] } hlook
    show ((r.sessions.map (fun p =>
        if p.1 == sid then (sid, { st with users := st.users ++ [(uid, ⟨nm⟩)] })
        else p)).lookup sid).map (fun s => s.users.length)
      = some (st.player_count + 1)
    rw [h2]
    simp [List.length_append, hfull]

/-- Concrete instantiation witnessing c3_join_when_full_inserts: the full
player_count-1 session of c3reg1 accepts the fresh uid 8. -/
theorem c3_join_when_full_inserts_witness :
    c3reg1.sessions.lookup 1 = some ⟨1, [(7, ⟨"a"⟩)], .dice, []⟩ ∧
    (1 : Nat) = (1 : Nat) ∧
    (8 : Nat) ∉ ([(7, UserData.mk "a")] : List (Nat × UserData)).map Prod.fst ∧
    (join_session c3reg1 1 8 "b"
      = .ok (c3reg1.store 1 ⟨1, [(7, ⟨"a"⟩), (8, ⟨"b"⟩)], .dice, []⟩,
             ((1 + 1) % 256 == 1)) ∧
     ((c3reg1.store 1 ⟨1, [(7, ⟨"a"⟩), (8, ⟨"b"⟩)], .dice, []⟩).sessions.lookup
        1).map (fun s => s.users.length) = some 2) :=
  ⟨by decide, rfl, by decide,
   c3_join_when_full_inserts c3reg1 1 8 "b" ⟨1, [(7, ⟨"a"⟩)], .dice, []⟩
     (by decide) (by decide) (by decide)⟩

/-- C4 counterexample: the quorum-completing join_session handler does
await the game loop's completion: awaiting the spawned task's join handle
is among the handler's steps, before the RPC returns. -/
theorem c4_handler_awaits_game :
    Step.awaitGameTask ∈ join_session_steps true ∧
    (join_session_steps true).getLast? = some Step.returnFromRpc := by decide

/-- C4 amended: the quorum-completing join spawns the game loop on a
separate task but then awaits the task's completion inside the handler
(the spawn/await pair isolates panics, it does not detach), so the join
RPC returns only after the game loop has ended; a non-quorum join neither
spawns nor awaits. -/
theorem c4_spawn_then_await :
    ((join_session_steps true).takeWhile
        (fun s => s ≠ Step.awaitGameTask)).contains Step.spawnGameTask = true ∧
    Step.awaitGameTask ∈ join_session_steps true ∧
    (join_session_steps true).getLast? = some Step.returnFromRpc ∧
    Step.spawnGameTask ∉ join_session_steps false ∧
    Step.awaitGameTask ∉ join_session_steps false := by decide

set_option maxRecDepth 8000 in
/-- C5 counterexample: with player_count 1 the first join triggers the
game loop, but the trigger also fires on the 257th join — its
post-insertion count 257 is not player_count, yet the cast of the count
to u8 makes the comparison 257 mod 256 = 1 succeed — so the loop is
started twice for the session. -/
theorem c5_loop_started_twice :
    (runJoins c3reg0 1 c5joins).2.count true = 2 := by decide

/-- C5 amended: a join of a fresh uid always succeeds, and it triggers the
game loop iff the post-insertion user count is congruent to player_count
mod 256 (the count is cast to u8 before the comparison); with at most
player_count joins this happens exactly once, on the quorum-completing
join, but 256 further joins re-fire the trigger. -/
theorem c5_quorum_trigger_mod256 (r : Registry) (sid uid : Nat) (nm : String)
    (st : SessionState) (hlook : r.sessions.lookup sid = some st)
    (hnew : uid ∉ st.users.map Prod.fst) :
    join_session r sid uid nm
      = .ok (r.store sid { st with users := st.users ++ [(uid, ⟨nm⟩)] },
             ((st.users.length + 1) % 256 == st.player_count)) := by
  unfold join_session
  rw [hlook]
  simp [hnew, List.length_append]

/-- Concrete instantiation witnessing c5_quorum_trigger_mod256: the first
join into the empty player_count-1 session of c3reg0 starts the loop
(count 1 is congruent to 1). -/
theorem c5_quorum_trigger_mod256_witness :
    c3reg0.sessions.lookup 1 = some ⟨1, [], .dice, []⟩ ∧
    (7 : Nat) ∉ ([] : List (Nat × UserData)).map Prod.fst ∧
    join_session c3reg0 1 7 "a"
      = .ok (c3reg0.store 1 ⟨1, [(7, ⟨"a"⟩)], .dice, []⟩, ((0 + 1) % 256 == 1)) :=
  ⟨by decide, by decide,
   c5_quorum_trigger_mod256 c3reg0 1 7 "a" ⟨1, [], .dice, []⟩
     (by decide) (by decide)⟩

/-- C6: in both game kinds, when every prompt succeeds (and, for coins, no
guess is longer than the truth vector — the panic of C2), the winner is
exactly the one selected by the spec rule "the last user polled with
score >= the best seen so far, the best starting at 0"; consequently when
all scores are 0 the last user polled wins. -/
theorem c6_last_best_polled_wins (users : List (Nat × UserData))
    (guessD : Nat → Except Error (List Nat)) (gd : Nat → List Nat)
    (guessC : Nat → Except Error (List Coin)) (gc : Nat → List Coin)
    (truthD : List Nat) (truthC : List Coin)
    (hne : users ≠ [])
    (hokD : ∀ u ∈ users, guessD u.1 = .ok (gd u.1))
    (hokC : ∀ u ∈ users, guessC u.1 = .ok (gc u.1))
    (hlen : ∀ u ∈ users, (gc u.1).length ≤ truthC.length) :
    (∃ w, specWinner (users.map (fun u => (u.1, diceScore (gd u.1) truthD)))
        = some w ∧
      dice_game users guessD truthD = .ok w) ∧
    (∃ w, specWinner (users.map (fun u => (u.1, coinScoreV (gc u.1) truthC)))
        = some w ∧
      coin_game users guessC truthC = some (.ok w)) ∧
    ((∀ u ∈ users, diceScore (gd u.1) truthD = 0) →
      dice_game users guessD truthD = .ok ((users.getLast hne).1)) :=
  ⟨dice_game_eq_spec users guessD gd truthD hne hokD,
   coin_game_eq_spec users guessC gc truthC hne hokC hlen,
   fun hz => dice_game_allZero users guessD gd truthD hne hokD hz⟩

/-- Concrete instantiation witnessing c6_last_best_polled_wins: both users
guess [1] against the dice truth [2] (all scores 0, the last polled user 2
wins) and [Heads] against the coin truth [Heads]. -/
theorem c6_last_best_polled_wins_witness :
    c6users ≠ [] ∧
    (∀ u ∈ c6users, c6guessD u.1 = .ok (c6gd u.1)) ∧
    (∀ u ∈ c6users, c6guessC u.1 = .ok (c6gc u.1)) ∧
    (∀ u ∈ c6users, (c6gc u.1).length ≤ ([Coin.heads] : List Coin).length) ∧
    ((∃ w, specWinner (c6users.map (fun u => (u.1, diceScore (c6gd u.1) [2])))
        = some w ∧
      dice_game c6users c6guessD [2] = .ok w) ∧
    (∃ w, specWinner (c6users.map (fun u => (u.1, coinScoreV (c6gc u.1) [Coin.heads])))
        = some w ∧
      coin_game c6users c6guessC [Coin.heads] = some (.ok w)) ∧
    ((∀ u ∈ c6users, diceScore (c6gd u.1) [2] = 0) →
      dice_game c6users c6guessD [2] = .ok ((c6users.getLast (by decide)).1))) :=
  ⟨by decide, fun u _ => rfl, fun u _ => rfl, by decide,
   c6_last_best_polled_wins c6users c6guessD c6gd c6guessC c6gc [2] [Coin.heads]
     (by decide) (fun u _ => rfl) (fun u _ => rfl) (by decide)⟩

/-- C7 counterexample: with guess [3, 3] and truth [3, 4] the code scores
2 — each repeated guess entry counts — while the claim's distinct-
membership reading yields 1. -/
theorem c7_repeated_guess_scores_twice :
    diceScore [3, 3] [3, 4] = 2 ∧ diceScoreDistinctSpec [3, 3] [3, 4] = 1 := by
  decide

/-- C7 amended: the dice score counts every guess entry (per position)
whose value appears in the truth vector, so repeated guess occurrences
each count; the truth vector is consulted only for membership, so
deduplicating it changes no score. -/
theorem c7_dice_score_per_entry (guess results : List Nat) :
    diceScore guess results
      = (guess.filter (fun g => results.contains g)).length ∧
    diceScore guess results.dedup = diceScore guess results := by
  have hbase : ∀ rs : List Nat, diceScore guess rs
      = (guess.filter (fun g => rs.contains g)).length := by
    intro rs
    have := diceScore_foldl rs guess 0
    simpa [diceScore] using this
  refine ⟨hbase results, ?_⟩
  rw [hbase results.dedup, hbase results]
  congr 1
  exact List.filter_congr (fun x _ => contains_dedup results x)

/-- C8: roll_dice first enqueues RollDice(sides, count) outbound, then a
DiceGuess(v) at the head of the inbound queue is returned as v, a
ClientError(e) fails with ClientError(e), any other variant (Pong,
CoinGuess, Again) fails with InvalidClientResponse, and a closed (empty)
inbound queue fails with ClientDisconnected. -/
theorem c8_roll_dice_correlation :
    ∀ (out : List Event.ServerRequest) (inb : List Event.ClientResponse)
      (s k : Nat) (v : List Nat) (e p : String) (g : List Coin) (b : Bool),
    Event.roll_dice ⟨out, []⟩ s k
      = (.error .clientDisconnected, ⟨out ++ [.rollDice s k], []⟩) ∧
    Event.roll_dice ⟨out, .diceGuess v :: inb⟩ s k
      = (.ok v, ⟨out ++ [.rollDice s k], inb⟩) ∧
    Event.roll_dice ⟨out, .clientError e :: inb⟩ s k
      = (.error (.clientError e), ⟨out ++ [.rollDice s k], inb⟩) ∧
    Event.roll_dice ⟨out, .pong p :: inb⟩ s k
      = (.error .invalidClientResponse, ⟨out ++ [.rollDice s k], inb⟩) ∧
    Event.roll_dice ⟨out, .coinGuess g :: inb⟩ s k
      = (.error .invalidClientResponse, ⟨out ++ [.rollDice s k], inb⟩) ∧
    Event.roll_dice ⟨out, .again b :: inb⟩ s k
      = (.error .invalidClientResponse, ⟨out ++ [.rollDice s k], inb⟩) :=
  fun _ _ _ _ _ _ _ _ _ => ⟨rfl, rfl, rfl, rfl, rfl, rfl⟩

/-- C9: converting a domain ServerRequest or ClientResponse payload to its
wire representation and back yields the payload, under the u8 range bounds
the Rust field types guarantee. -/
theorem c9_envelope_roundtrip :
    (∀ sr : Types.ServerRequest, Types.WFServerRequest sr →
      Types.ServerRequest.fromWire sr.toWire = .ok sr) ∧
    (∀ cr : Types.ClientResponse, Types.WFClientResponse cr →
      Types.ClientResponse.fromWire cr.toWire = .ok cr) := by
  constructor
  · intro sr hwf
    cases sr with
    | joinInfo ji => rfl
    | ping p => rfl
    | rollDice rd =>
      obtain ⟨h1, h2⟩ := hwf
      simp [Types.ServerRequest.toWire, Types.ServerRequest.fromWire,
        Types.RollDice.toWire, Types.RollDice.fromWire,
        Nat.mod_eq_of_lt h1, Nat.mod_eq_of_lt h2]
    | flipCoin fc =>
      simp [Types.ServerRequest.toWire, Types.ServerRequest.fromWire,
        Types.FlipCoin.toWire, Types.FlipCoin.fromWire,
        Nat.mod_eq_of_lt hwf]
    | winner w => rfl
    | tryAgain t => rfl
  · intro cr hwf
    cases cr with
    | pong p => rfl
    | diceGuess dg =>
      simp [Types.ClientResponse.toWire, Types.ClientResponse.fromWire,
        Types.DiceGuess.toWire, Types.DiceGuess.fromWire,
        map_mod256_eq dg.number hwf]
    | coinGuess cg =>
      simp [Types.ClientResponse.toWire, Types.ClientResponse.fromWire,
        Types.CoinGuess.toWire, Types.CoinGuess.fromWire,
        coinsFromWire_map]
    | again a => rfl

/-- Concrete instantiation witnessing c9_envelope_roundtrip: a RollDice
prompt and a DiceGuess response survive the round trip. -/
theorem c9_envelope_roundtrip_witness :
    Types.WFServerRequest (.rollDice ⟨6, 2⟩) ∧
    Types.ServerRequest.fromWire
        (Types.ServerRequest.toWire (.rollDice ⟨6, 2⟩)) = .ok (.rollDice ⟨6, 2⟩) ∧
    Types.WFClientResponse (.diceGuess ⟨[3, 5]⟩) ∧
    Types.ClientResponse.fromWire
        (Types.ClientResponse.toWire (.diceGuess ⟨[3, 5]⟩))
      = .ok (.diceGuess ⟨[3, 5]⟩) :=
  ⟨by decide, c9_envelope_roundtrip.1 _ (by decide),
   by decide, c9_envelope_roundtrip.2 _ (by decide)⟩

/-- C10 counterexample: in this coin round every per-user prompt succeeds,
yet coin_game does not return Ok with a winner: user 7's two-coin guess
against the one-coin truth vector hits the out-of-bounds read of C2 and
the task panics (none). -/
theorem c10_coin_panic :
    coin_game [(7, ⟨"a"⟩)] (fun _ => .ok [Coin.heads, Coin.heads]) [Coin.heads]
      = none := rfl

/-- C10 amended: with a non-empty users map and every per-user prompt
succeeding, dice_game always returns Ok with some winner, and coin_game
does too provided additionally no guess is longer than the truth vector
(otherwise the C2 indexing panic aborts the round before the match);
the UnknownWinner branch is unreachable in both. -/
theorem c10_all_ok_returns_winner (users : List (Nat × UserData))
    (guessD : Nat → Except Error (List Nat)) (gd : Nat → List Nat)
    (guessC : Nat → Except Error (List Coin)) (gc : Nat → List Coin)
    (truthD : List Nat) (truthC : List Coin)
    (hne : users ≠ [])
    (hokD : ∀ u ∈ users, guessD u.1 = .ok (gd u.1))
    (hokC : ∀ u ∈ users, guessC u.1 = .ok (gc u.1))
    (hlen : ∀ u ∈ users, (gc u.1).length ≤ truthC.length) :
    (∃ w, dice_game users guessD truthD = .ok w) ∧
    (∃ w, coin_game users guessC truthC = some (.ok w)) := by
  obtain ⟨w1, _, h1⟩ := dice_game_eq_spec users guessD gd truthD hne hokD
  obtain ⟨w2, _, h2⟩ := coin_game_eq_spec users guessC gc truthC hne hokC hlen
  exact ⟨⟨w1, h1⟩, ⟨w2, h2⟩⟩

/-- Concrete instantiation witnessing c10_all_ok_returns_winner, on the
same two-user scenario as the C6 witness. -/
theorem c10_all_ok_returns_winner_witness :
    c6users ≠ [] ∧
    (∀ u ∈ c6users, c6guessD u.1 = .ok (c6gd u.1)) ∧
    (∀ u ∈ c6users, c6guessC u.1 = .ok (c6gc u.1)) ∧
    (∀ u ∈ c6users, (c6gc u.1).length ≤ ([Coin.heads] : List Coin).length) ∧
    ((∃ w, dice_game c6users c6guessD [2] = .ok w) ∧
     (∃ w, coin_game c6users c6guessC [Coin.heads] = some (.ok w))) :=
  ⟨by decide, fun u _ => rfl, fun u _ => rfl, by decide,
   c10_all_ok_returns_winner c6users c6guessD c6gd c6guessC c6gc [2] [Coin.heads]
     (by decide) (fun u _ => rfl) (fun u _ => rfl) (by decide)⟩

end CSR
